import Mathlib

/-!
Verification development for the adaptive vector routing repository.

The repository contains two routing variants:

* `src/avrs/*` — the "Adaptive Vector Routing System": a scoring selector
  with a mandatory capacity filter, role ("service section") filtering,
  a per-node route cache, and the `Simulation.route_request` executor.
* `src/routing_engine.py` + `src/simulator.py` — the greedy/fallback/face
  variant whose selector annotates each hop with a method string
  ("greedy", "fallback", "cache", "face", "none") and whose executor
  asserts that no node id is ever revisited.

Modelling conventions (each noted again at the definition it concerns):

* Python floats are modelled as exact rationals (`ℚ`).  Euclidean
  distances occur in the source only inside comparisons, so they are
  modelled by the squared distance `dist2`; `Real.sqrt` is strictly
  monotone on nonnegative reals, hence `dist(a) < dist(b) ↔ dist2 a < dist2 b`
  and likewise for `≤`.  The `1e-10` slack terms the float code adds to
  such comparisons to guard against rounding noise are modelled as the
  exact comparison (the idealisation ε = 0).
* `cosine_similarity` is irrational in general.  Where the source
  compares it against a threshold (`has_reached_target`) the comparison
  is modelled exactly over ℚ by comparing squares (`cos_sim_gt`).  Where
  its numeric value is merely an additive score term, the model takes
  the semantic-similarity function as an explicit parameter (`Sem`);
  every theorem below holds for an arbitrary such function, in
  particular for the true cosine.
* Mutable per-node state (`load`, the route cache) is threaded through
  an explicit `SimState`.  `trust` is only mutated by the trust system
  after the final routing decision of a request, and `alive` /
  `neighbors` are not mutated by the executors at all, so they are kept
  as static `Node` fields.
* The per-node route cache is keyed in the source by the target vector
  rounded to 4 decimals.  A single run of the executor uses one fixed
  target, hence one fixed key, so the model keeps one cache slot per
  node id for the ambient target.
* Wall-clock times, log strings, uuids and the observability sink do not
  influence routing decisions and are omitted.
-/

set_option allowUnsafeReducibility true

/- Core marks rational arithmetic `irreducible`, which blocks `decide`
from evaluating the model on the concrete witness inputs below.  The
kernel ignores reducibility attributes, so restoring `semireducible`
only lets elaboration perform the same reductions the kernel will
re-check. -/
attribute [local semireducible] Rat.add Rat.sub Rat.mul Rat.normalize Rat.inv Rat.blt

/-- Rational vector, modelling `Vector = List[float]` from
`src/avrs/math_utils.py` / `src/vector_math.py`. -/
abbrev Vec := List ℚ

/-- Dot product, from `dot_product` in `src/avrs/math_utils.py`.
The Python code raises on dimension mismatch (a programmer error per the
spec); the model truncates to the common prefix via `zip`. -/
def dot_product (v1 v2 : Vec) : ℚ :=
  (v1.zip v2).foldl (fun s p => s + p.1 * p.2) 0

/-- Squared magnitude.  The source's `magnitude` is `sqrt` of this; only
comparisons of magnitudes with zero occur in modelled code, and
`magnitude v = 0 ↔ mag2 v = 0`. -/
def mag2 (v : Vec) : ℚ :=
  v.foldl (fun s x => s + x * x) 0

/-- Squared Euclidean distance.  The source's `euclidean_distance` is
`sqrt` of this; all modelled uses are comparisons, which are preserved
because `sqrt` is strictly monotone. -/
def dist2 (v1 v2 : Vec) : ℚ :=
  (v1.zip v2).foldl (fun s p => s + (p.1 - p.2) * (p.1 - p.2)) 0

/-- Exact test for `cosine_similarity v1 v2 > t`, from
`cosine_similarity` in `src/avrs/math_utils.py`.

The source computes `dot/(sqrt(mag2 v1)*sqrt(mag2 v2))` and returns `0.0`
when either magnitude is zero.  For `s := sqrt(mag2 v1 * mag2 v2) > 0`:
`dot/s > t ↔ dot > t*s`, and squaring (with the sign analysis below)
turns this into a rational inequality:
* `t ≥ 0`: `dot > t*s ↔ dot > 0 ∧ dot² > t²·(mag2 v1·mag2 v2)`;
* `t < 0`: `dot > t*s ↔ dot ≥ 0 ∨ dot² < t²·(mag2 v1·mag2 v2)`. -/
def cos_sim_gt (v1 v2 : Vec) (t : ℚ) : Bool :=
  if mag2 v1 = 0 ∨ mag2 v2 = 0 then decide (0 > t)
  else if 0 ≤ t then
    decide (0 < dot_product v1 v2) &&
      decide (t * t * (mag2 v1 * mag2 v2) < dot_product v1 v2 * dot_product v1 v2)
  else
    decide (0 ≤ dot_product v1 v2) ||
      decide (dot_product v1 v2 * dot_product v1 v2 < t * t * (mag2 v1 * mag2 v2))

/-- Network node, from `class Node` in `src/avrs/node.py` (the
`graph_builder.py` variant has the same routing-relevant fields minus
`capacity`/`latency`, which it leaves at their defaults).  Python holds
neighbor object references; the model stores neighbor ids and resolves
them against the ambient node list.  `url`, `overload_threshold` and the
display helpers never influence routing and are omitted.  The mutable
`load` and route cache live in `SimState`. -/
structure Node where
  id : String
  vector : Vec
  role : String := "default"
  neighbors : List String := []
  capacity : ℚ := 20
  trust : ℚ := 1
  latency : ℚ := 10
  alive : Bool := true
deriving DecidableEq, Repr

/-- A network is its node list (`Network.nodes` in `src/avrs/network.py`,
`Simulator.nodes` in `src/simulator.py`). -/
abbrev Net := List Node

/-- Mutable per-node state threaded through an executor run: the load
counter and the route-cache slot for the ambient request's target key. -/
structure SimState where
  load : String → ℚ
  cache : String → Option String

/-- Initial state: all loads zero, caches empty. -/
def SimState.empty : SimState := ⟨fun _ => 0, fun _ => none⟩

/-- From `Node.increment_load` in `src/avrs/node.py` (default amount 1;
`graph_builder.Node.increment_load` always adds 1). -/
def increment_load (st : SimState) (nid : String) : SimState :=
  { st with load := fun k => if k = nid then st.load k + 1 else st.load k }

/-- From `Node.cache_route`: store the chosen next-hop id for the ambient
target key. -/
def cache_route (st : SimState) (nid nextId : String) : SimState :=
  { st with cache := fun k => if k = nid then some nextId else st.cache k }

/-- Assign a node's load counter (the operator-facing load mutation of
`src/avrs/node.py`, e.g. `reset_load`; used to compare the scoring
function at two load values with all else fixed). -/
def set_load (st : SimState) (nid : String) (l : ℚ) : SimState :=
  { st with load := fun k => if k = nid then l else st.load k }

/-- From `Node.is_at_capacity` in `src/avrs/node.py`:
`self.load >= self.capacity`. -/
def is_at_capacity (st : SimState) (n : Node) : Bool :=
  decide (n.capacity ≤ st.load n.id)

/-- From `Node.get_load_ratio` in `src/avrs/node.py`: `load / capacity`
clamped to `[0, 1]`, and `1.0` when `capacity <= 0`. -/
def get_load_ratio (st : SimState) (n : Node) : ℚ :=
  if n.capacity ≤ 0 then 1 else min 1 (max 0 (st.load n.id / n.capacity))

/-- From `Node.get_alive_neighbors`: the alive members of the adjacency
list.  The source iterates in adjacency-list order; the model iterates in
network order, which no modelled claim depends on. -/
def get_alive_neighbors (net : Net) (n : Node) : List Node :=
  net.filter fun m => n.neighbors.contains m.id && m.alive

/-- Semantic-similarity function: the value of
`cosine_similarity neighbor.vector target` used as a score term.  Its
exact value is irrational in general, so the model abstracts it; all
theorems hold for every `Sem`. -/
abbrev Sem := Vec → Vec → ℚ

/-- Configuration of `avrs.routing.RoutingEngine` (constructor defaults:
weights 0.5/0.2/0.2/0.1, cosine threshold 0.95, cache enabled). -/
structure AvrsCfg where
  semantic_weight : ℚ := 1/2
  trust_weight : ℚ := 1/5
  load_penalty : ℚ := 1/5
  latency_penalty : ℚ := 1/10
  cosine_threshold : ℚ := 19/20
  use_cache : Bool := true
deriving Repr

/-- From `RoutingEngine.score_neighbor` in `src/avrs/routing.py`:
`score = W_sem*sem + W_trust*trust - W_load*load_ratio - W_lat*(1 - latency_factor)`
with `latency_factor = 1 - min(latency/1000, 1)`.  `current` is a
parameter of the source method but unused by its body. -/
def score_neighbor (cfg : AvrsCfg) (sem : Sem) (st : SimState)
    (_current neighbor : Node) (target : Vec) : ℚ :=
  let semantic_similarity := sem neighbor.vector target
  let trust := neighbor.trust
  let load_ratio := get_load_ratio st neighbor
  let normalized_latency := min (neighbor.latency / 1000) 1
  let latency_factor := 1 - normalized_latency
  cfg.semantic_weight * semantic_similarity
    + cfg.trust_weight * trust
    - cfg.load_penalty * load_ratio
    - cfg.latency_penalty * (1 - latency_factor)

/-- From `RoutingEngine.filter_by_capacity` in `src/avrs/routing.py`:
discard nodes with `load >= capacity`. -/
def filter_by_capacity (st : SimState) (nodes : List Node) : List Node :=
  nodes.filter fun n => !(is_at_capacity st n)

/-- Stable descending insertion by key, modelling Python's stable
`list.sort(key=..., reverse=True)`: an element is placed after every
earlier element whose key is `≥` its own. -/
def insert_desc {α : Type} (f : α → ℚ) (p : α) : List α → List α
  | [] => [p]
  | q :: rest => if f p ≤ f q then q :: insert_desc f p rest else p :: q :: rest

/-- Stable descending sort by key (insertion sort). -/
def sort_desc {α : Type} (f : α → ℚ) : List α → List α
  | [] => []
  | p :: rest => insert_desc f p (sort_desc f rest)

/-- Role filter guard: `target_role is None or n.role == target_role`. -/
def role_ok (targetRole : Option String) (n : Node) : Bool :=
  match targetRole with
  | none => true
  | some r => n.role == r

/-- From `RoutingEngine.score_all_neighbors` in `src/avrs/routing.py`:
alive neighbors, filtered by role (when given) and capacity, scored and
sorted best-first. -/
def score_all_neighbors (cfg : AvrsCfg) (sem : Sem) (net : Net) (st : SimState)
    (current : Node) (target : Vec) (targetRole : Option String) :
    List (Node × ℚ) :=
  let alive_neighbors := get_alive_neighbors net current
  let alive_neighbors :=
    match targetRole with
    | some role => alive_neighbors.filter fun n => n.role == role
    | none => alive_neighbors
  let available := filter_by_capacity st alive_neighbors
  sort_desc (fun p => p.2)
    (available.map fun n => (n, score_neighbor cfg sem st current n target))

/-- The cache fast-path of `RoutingEngine.select_next_hop` in
`src/avrs/routing.py` (Section 13): the cached id, when set, is
validated to be an alive, below-capacity, role-matching, non-recent
neighbor.  Split out of `avrs_select_next_hop` for proof convenience. -/
def avrs_cached_candidate (cfg : AvrsCfg) (net : Net) (st : SimState)
    (current : Node) (targetRole : Option String)
    (recent_nodes : List String) : Option Node :=
  if cfg.use_cache then
    match st.cache current.id with
    | some cached_id =>
        (get_alive_neighbors net current).find? fun n =>
          n.id == cached_id && !(is_at_capacity st n) &&
            role_ok targetRole n && !(recent_nodes.contains n.id)
    | none => none
  else none

/-- From `RoutingEngine.select_next_hop` in `src/avrs/routing.py`: the
cache fast-path (via `avrs_cached_candidate`), then scoring with the
5%-of-best load-balancing tie-break against `recent_nodes`, returning
the best scorer if every near-best candidate is recent. -/
def avrs_select_next_hop (cfg : AvrsCfg) (sem : Sem) (net : Net) (st : SimState)
    (current : Node) (target : Vec) (targetRole : Option String)
    (recent_nodes : List String) : Option Node :=
  match avrs_cached_candidate cfg net st current targetRole recent_nodes with
  | some n => some n
  | none =>
    match score_all_neighbors cfg sem net st current target targetRole with
    | [] => none
    | best :: rest =>
      match ((best :: rest).filter fun p => decide (best.2 * (19/20) ≤ p.2)).find?
          (fun p => !(recent_nodes.contains p.1.id)) with
      | some p => some p.1
      | none => some best.1

/-- From `RoutingEngine.has_reached_target` in `src/avrs/routing.py`:
local minimum (every alive neighbor at distance `≥` the current node's —
note `>=`, so equal distance counts) or cosine similarity above the
threshold.  Distances are compared via `dist2`, cosine via `cos_sim_gt`. -/
def avrs_has_reached_target (cfg : AvrsCfg) (net : Net) (current : Node)
    (target : Vec) : Bool :=
  let alive_neighbors := get_alive_neighbors net current
  let all_farther := !alive_neighbors.isEmpty &&
    alive_neighbors.all fun n =>
      decide (dist2 current.vector target ≤ dist2 n.vector target)
  if all_farther then true
  else cos_sim_gt current.vector target cfg.cosine_threshold

/-- From `ServiceGrouping.has_alive_nodes` in
`src/avrs/service_grouping.py`: the grouping maps each role to the
network's nodes of that role, and `has_alive_nodes` asks whether any of
them is alive. -/
def has_alive_nodes (net : Net) (role : String) : Bool :=
  net.any fun n => n.role == role && n.alive

/-- Some alive node of the network carries this id (used to state that
path entries refer to alive nodes). -/
def alive_in (net : Net) (nid : String) : Bool :=
  net.any fun n => n.id == nid && n.alive

/-! ## The avrs executor (`Simulation.route_request`, `src/avrs/simulation.py`) -/

/-- Hop record, from `HopRecord` in `src/avrs/simulation.py`.  The
diagnostic `node_vector`, `distance_to_target` and per-neighbor `scores`
fields are display-only and omitted. -/
structure AvrsHop where
  step : Nat
  node_id : String
  chosen_next : Option String := none
  is_terminal : Bool := false
  failure : Bool := false
deriving DecidableEq, Repr

/-- Route result, from `RouteResult` in `src/avrs/simulation.py`.  The
`request` field and `total_latency_ms` (wall-clock) are omitted. -/
structure AvrsRouteResult where
  start_node_id : String
  path : List String := []
  hops : List AvrsHop := []
  success : Bool := false
  final_node_id : Option String := none
  total_hops : Nat := 0
  reroute_count : Nat := 0
  failures : List String := []
deriving DecidableEq, Repr

/-- `MAX_HOPS` class constant of `avrs.simulation.Simulation`. -/
def MAX_HOPS : Nat := 50

/-- The executor's next-hop choice after the selector
(`src/avrs/simulation.py`): if the selector's pick was already visited,
fall back to the best unvisited scored candidate (the `scored` list the
executor computed earlier in the step), else keep it; `None` if nothing
remains. -/
def avrs_next_choice (cfg : AvrsCfg) (sem : Sem) (net : Net) (st : SimState)
    (current : Node) (target : Vec) (targetRole : Option String)
    (scored : List (Node × ℚ)) (visited : List String) : Option Node :=
  match avrs_select_next_hop cfg sem net st current target targetRole [] with
  | some n =>
    if visited.contains n.id then
      (scored.find? fun p => !(visited.contains p.1.id)).map (fun p => p.1)
    else some n
  | none => none

/-- Outcome of one iteration of the `route_request` loop body: either the
loop breaks/returns with a finished result, or it continues with updated
state, current node, visited set and accumulator. -/
inductive AvrsStep where
  | done (r : AvrsRouteResult)
  | next (st : SimState) (cur : Node) (visited : List String) (acc : AvrsRouteResult)

/-- One iteration of the loop body of `Simulation.route_request`
(`src/avrs/simulation.py`, the `for step in range(self.MAX_HOPS)` body):
record the visit; if the current node is dead, self-heal by rescoring and
dropping visited (else abort); otherwise increment load, consult the
termination oracle (success only in the required section), select the
next hop, replace a visited selection by the best unvisited scored
candidate, and either fail (no hop), cache the route and forward.  Trust
and observability updates do not influence routing and are omitted. -/
def avrs_step (cfg : AvrsCfg) (sem : Sem) (net : Net) (targetRole : Option String)
    (target : Vec) (step : Nat) (st : SimState) (current : Node)
    (visited : List String) (acc : AvrsRouteResult) : AvrsStep :=
  let acc := { acc with path := acc.path ++ [current.id] }
  let visited := current.id :: visited
  if current.alive = false then
    let acc := { acc with
      failures := acc.failures ++ ["Node " ++ current.id ++ " failed during execution"],
      reroute_count := acc.reroute_count + 1 }
    let scored := (score_all_neighbors cfg sem net st current target targetRole).filter
      fun p => !(visited.contains p.1.id)
    match scored with
    | [] => .done { acc with success := false, final_node_id := some current.id }
    | p :: _ => .next st p.1 visited acc
  else
    let scored := score_all_neighbors cfg sem net st current target targetRole
    let hop : AvrsHop := { step := step, node_id := current.id }
    let st := increment_load st current.id
    if avrs_has_reached_target cfg net current target && role_ok targetRole current then
      .done { acc with
        hops := acc.hops ++ [{ hop with is_terminal := true }],
        success := true, final_node_id := some current.id, total_hops := step + 1 }
    else
      match avrs_next_choice cfg sem net st current target targetRole scored visited with
      | none => .done { acc with
          hops := acc.hops ++ [{ hop with failure := true }],
          success := false, final_node_id := some current.id, total_hops := step + 1 }
      | some n =>
        let acc := { acc with hops := acc.hops ++ [{ hop with chosen_next := some n.id }] }
        let st := cache_route st current.id n.id
        .next st n visited acc

/-- The `for step in range(MAX_HOPS)` loop of `Simulation.route_request`,
fuel-indexed.  Exhausting the fuel is the loop's `else:` branch (hit
`MAX_HOPS` without termination). -/
def avrs_loop (cfg : AvrsCfg) (sem : Sem) (net : Net) (targetRole : Option String)
    (target : Vec) :
    Nat → Nat → SimState → Node → List String → AvrsRouteResult → AvrsRouteResult
  | 0, _, _, current, _, acc =>
    { acc with success := false, final_node_id := some current.id, total_hops := MAX_HOPS }
  | fuel + 1, step, st, current, visited, acc =>
    match avrs_step cfg sem net targetRole target step st current visited acc with
    | .done r => r
    | .next st' cur' vis' acc' =>
      avrs_loop cfg sem net targetRole target fuel (step + 1) st' cur' vis' acc'

/-- From `Simulation.route_request` in `src/avrs/simulation.py`.  The
source derives `target_role` from the request text via
`ServiceGrouping.determine_target_role`; the model takes that derived
role as the `targetRole` input.  If the role's section has no alive node
the request fails immediately (section failure); otherwise the hop loop
runs with `MAX_HOPS` fuel. -/
def avrs_route_request (cfg : AvrsCfg) (sem : Sem) (net : Net) (st : SimState)
    (start : Node) (targetRole : Option String) (target : Vec) : AvrsRouteResult :=
  let result : AvrsRouteResult := { start_node_id := start.id }
  let section_empty :=
    match targetRole with
    | some role => !(has_alive_nodes net role)
    | none => false
  if section_empty then
    { result with
      success := false
      final_node_id := some start.id
      failures := ["Target section " ++ targetRole.getD "" ++ " has no alive nodes"] }
  else
    avrs_loop cfg sem net targetRole target MAX_HOPS 0 st start [] result

/-! ## The greedy/fallback/face variant
(`src/routing_engine.py`, `src/simulator.py`) -/

/-- Configuration of `routing_engine.RoutingEngine` (constructor
defaults: cosine threshold 0.99, 50 hops, cache and face routing
enabled).  The scoring weights `alpha..delta` parameterise
`score_neighbor`, whose value is abstracted as `ScoreFn` below, so they
do not reappear here. -/
structure RECfg where
  cosine_threshold : ℚ := 99/100
  max_hops : Nat := 50
  use_cache : Bool := true
  use_face_routing : Bool := true
deriving Repr

/-- Abstraction of `routing_engine.RoutingEngine.score_neighbor`
(current, neighbor, target ↦ score, reading the mutable load from the
state).  The source value `0.5*cosine + 0.3*distance_gain -
0.15*normalized_load + 0.05*trust` mixes irrational cosine and square
roots; only its induced ordering feeds control flow, and every theorem
below holds for an arbitrary `ScoreFn`. -/
abbrev ScoreFn := SimState → Node → Node → Vec → ℚ

/-- Abstraction of `topology_engine.face_route_full` (stuck node, target
↦ node to resume from, or `None`).  The source walks `atan2`-ordered
2-D-projected face boundaries, which has no exact rational model; every
theorem below holds for an arbitrary `FaceFn`. -/
abbrev FaceFn := Node → Vec → Option Node

/-- From `routing_engine.RoutingEngine.score_all_neighbors`: all alive
neighbors, scored and sorted best-first (no capacity filter in this
variant). -/
def re_score_all_neighbors (scoreFn : ScoreFn) (net : Net) (st : SimState)
    (current : Node) (target : Vec) : List (Node × ℚ) :=
  sort_desc (fun p => p.2)
    ((get_alive_neighbors net current).map fun n => (n, scoreFn st current n target))

/-- From `routing_engine.RoutingEngine.has_reached_target`: returns the
termination reason, `""` if not terminal.  The source compares distances
with a `1e-10` slack (`>= current_dist - 1e-10`), modelled as the exact
`≥` on squared distances. -/
def re_has_reached_target (cfg : RECfg) (net : Net) (current : Node)
    (target : Vec) : String :=
  let alive_neighbors := get_alive_neighbors net current
  let all_farther := !alive_neighbors.isEmpty &&
    alive_neighbors.all fun n =>
      decide (dist2 current.vector target ≤ dist2 n.vector target)
  if all_farther then "local_minimum"
  else if alive_neighbors.isEmpty then "no_neighbors"
  else if cos_sim_gt current.vector target cfg.cosine_threshold then "high_similarity"
  else ""

/-- The cache fast-path of `routing_engine.RoutingEngine.select_next_hop`
(Section 14): the cached id, when set, is validated to be an alive,
unvisited neighbor.  Split out of `re_select_next_hop` for proof
convenience. -/
def re_cached_candidate (cfg : RECfg) (net : Net) (st : SimState)
    (current : Node) (visited : List String) : Option Node :=
  if cfg.use_cache then
    match st.cache current.id with
    | some cached_id =>
      (get_alive_neighbors net current).find? fun n =>
        n.id == cached_id && !(visited.contains n.id)
    | none => none
  else none

/-- The greedy stage of `routing_engine.RoutingEngine.select_next_hop`:
the best-scoring unvisited neighbor that strictly improves the distance
to target (the source requires `dist_nb < dist_current - 1e-10`,
modelled as the exact strict inequality on squared distances). -/
def re_greedy_candidate (scoreFn : ScoreFn) (net : Net) (st : SimState)
    (current : Node) (target : Vec) (visited : List String) :
    Option (Node × ℚ) :=
  (re_score_all_neighbors scoreFn net st current target).find? fun p =>
    !(visited.contains p.1.id) &&
      decide (dist2 p.1.vector target < dist2 current.vector target)

/-- The fallback stage of `routing_engine.RoutingEngine.select_next_hop`
(Section 7): the best-scoring unvisited neighbor, whether or not it
improves the distance. -/
def re_fallback_candidate (scoreFn : ScoreFn) (net : Net) (st : SimState)
    (current : Node) (target : Vec) (visited : List String) :
    Option (Node × ℚ) :=
  (re_score_all_neighbors scoreFn net st current target).find? fun p =>
    !(visited.contains p.1.id)

/-- The face-routing stage of
`routing_engine.RoutingEngine.select_next_hop` (Section 8): consult
`face_route_full` when enabled. -/
def re_face_candidate (cfg : RECfg) (faceFn : FaceFn) (current : Node)
    (target : Vec) : Option Node :=
  if cfg.use_face_routing then faceFn current target else none

/-- From `routing_engine.RoutingEngine.select_next_hop`: cache fast-path,
then greedy, then fallback, then face routing, else `(None, "none")`,
each stage with its method annotation.  The diagnostic `score_details`
list is display-only and omitted. -/
def re_select_next_hop (cfg : RECfg) (scoreFn : ScoreFn) (faceFn : FaceFn)
    (net : Net) (st : SimState) (current : Node) (target : Vec)
    (visited : List String) : Option Node × String :=
  match re_cached_candidate cfg net st current visited with
  | some n => (some n, "cache")
  | none =>
    match re_greedy_candidate scoreFn net st current target visited with
    | some p => (some p.1, "greedy")
    | none =>
      match re_fallback_candidate scoreFn net st current target visited with
      | some p => (some p.1, "fallback")
      | none =>
        match re_face_candidate cfg faceFn current target with
        | some n => (some n, "face")
        | none => (none, "none")

/-- Hop record, from `HopRecord` in `src/simulator.py`.  Distances are
stored squared; the diagnostic `node_vector`, `candidates` and `skipped`
fields are display-only and omitted. -/
structure REHop where
  step : Nat
  node_id : String
  distance2_to_target : ℚ := 0
  chosen_next : Option String := none
  method : String := ""
  is_terminal : Bool := false
  terminal_reason : String := ""
  failure : Bool := false
deriving DecidableEq, Repr

/-- Relation between consecutive hop records: if the earlier hop was
annotated "greedy", the later hop's node is strictly closer to the
target (squared distances).  A route satisfies C1 when its hop list is a
chain for this relation. -/
def greedy_hop_decreasing (h1 h2 : REHop) : Prop :=
  h1.method = "greedy" → h2.distance2_to_target < h1.distance2_to_target

/-- Route result, from `RouteResult` in `src/simulator.py` (distances
squared, `request` omitted). -/
structure RERouteResult where
  start_node_id : String
  path : List String := []
  hops : List REHop := []
  success : Bool := false
  final_node_id : Option String := none
  total_hops : Nat := 0
  reroute_count : Nat := 0
  face_route_count : Nat := 0
  final_distance2 : ℚ := 0
  optimal_distance2 : Option ℚ := none
deriving DecidableEq, Repr

/-- From `Simulator.find_closest_node`: the alive node strictly closest
to the target (first wins ties), or `None` if no node is alive. -/
def find_closest_node (net : Net) (target : Vec) : Option Node :=
  net.foldl
    (fun best n =>
      if n.alive then
        match best with
        | none => some n
        | some b =>
          if dist2 n.vector target < dist2 b.vector target then some n else some b
      else best)
    none

/-- Outcome of one iteration of the `Simulator.route_request` loop body:
the no-cycling assertion fired (`crashed` — the Python `assert` raises
and no route is returned), the loop broke with a finished result, or it
continues. -/
inductive REStep where
  | crashed
  | done (r : RERouteResult)
  | next (st : SimState) (cur : Node) (visited : List String) (acc : RERouteResult)

/-- One iteration of the loop body of `Simulator.route_request`
(`src/simulator.py`): assert no cycling, record the visit, increment
load, consult the termination oracle, select the next hop (greedy /
fallback / face / cache), count reroutes, write the cache and forward. -/
def re_sim_step (cfg : RECfg) (scoreFn : ScoreFn) (faceFn : FaceFn) (net : Net)
    (target : Vec) (step : Nat) (st : SimState) (current : Node)
    (visited : List String) (acc : RERouteResult) : REStep :=
  if visited.contains current.id then .crashed
  else
    let acc := { acc with path := acc.path ++ [current.id] }
    let visited := current.id :: visited
    let d := dist2 current.vector target
    let st := increment_load st current.id
    let term_reason := re_has_reached_target cfg net current target
    let hop0 : REHop := { step := step, node_id := current.id, distance2_to_target := d }
    if term_reason ≠ "" then
      .done { acc with
        hops := acc.hops ++ [{ hop0 with is_terminal := true, terminal_reason := term_reason }]
        success := true
        final_node_id := some current.id
        total_hops := step + 1
        final_distance2 := d }
    else
      match re_select_next_hop cfg scoreFn faceFn net st current target visited with
      | (none, method) =>
        .done { acc with
          hops := acc.hops ++ [{ hop0 with method := method, failure := true }]
          success := false
          final_node_id := some current.id
          total_hops := step + 1
          final_distance2 := d }
      | (some n, method) =>
        let acc := { acc with
          reroute_count := acc.reroute_count +
            (if method == "fallback" || method == "face" then 1 else 0)
          face_route_count := acc.face_route_count +
            (if method == "face" then 1 else 0)
          hops := acc.hops ++ [{ hop0 with chosen_next := some n.id, method := method }] }
        let st := if cfg.use_cache then cache_route st current.id n.id else st
        .next st n visited acc

/-- The `for step in range(self.engine.max_hops)` loop of
`Simulator.route_request`, fuel-indexed; `none` models the `assert`
raising (no route returned), and exhausting the fuel is the loop's
`else:` branch. -/
def re_sim_loop (cfg : RECfg) (scoreFn : ScoreFn) (faceFn : FaceFn) (net : Net)
    (target : Vec) :
    Nat → Nat → SimState → Node → List String → RERouteResult →
      Option RERouteResult
  | 0, _, _, current, _, acc =>
    some { acc with
      success := false
      final_node_id := some current.id
      total_hops := cfg.max_hops
      final_distance2 := dist2 current.vector target }
  | fuel + 1, step, st, current, visited, acc =>
    match re_sim_step cfg scoreFn faceFn net target step st current visited acc with
    | .crashed => none
    | .done r => some r
    | .next st' cur' vis' acc' =>
      re_sim_loop cfg scoreFn faceFn net target fuel (step + 1) st' cur' vis' acc'

/-- From `Simulator.route_request` in `src/simulator.py`: record the
optimal (closest alive) distance, then run the hop loop with `max_hops`
fuel.  `none` means the source raised its no-cycling `AssertionError`
instead of completing the route. -/
def re_route_request (cfg : RECfg) (scoreFn : ScoreFn) (faceFn : FaceFn)
    (net : Net) (st : SimState) (start : Node) (target : Vec) :
    Option RERouteResult :=
  let optimal := (find_closest_node net target).map fun n => dist2 n.vector target
  re_sim_loop cfg scoreFn faceFn net target cfg.max_hops 0 st start []
    { start_node_id := start.id, optimal_distance2 := optimal }

/-! ## Topology construction (`src/graph_builder.py`, `src/avrs/network.py`) -/

/-- Stable ascending insertion by key, modelling Python's stable
`list.sort(key=...)`. -/
def insert_asc {α : Type} (f : α → ℚ) (p : α) : List α → List α
  | [] => [p]
  | q :: rest => if f q ≤ f p then q :: insert_asc f p rest else p :: q :: rest

/-- Stable ascending sort by key (insertion sort). -/
def sort_asc {α : Type} (f : α → ℚ) : List α → List α
  | [] => []
  | p :: rest => insert_asc f p (sort_asc f rest)

/-- From `Node.add_neighbor` (`src/graph_builder.py` /
`src/avrs/node.py`): append `bId` to `aId`'s adjacency list unless it is
already present or a self-loop.  Python mutates the node object; the
model rewrites the node list. -/
def add_neighbor (nodes : List Node) (aId bId : String) : List Node :=
  nodes.map fun n =>
    if n.id = aId ∧ bId ≠ aId ∧ ¬ n.neighbors.contains bId then
      { n with neighbors := n.neighbors ++ [bId] }
    else n

/-- From `build_knn_graph` in `src/graph_builder.py`: for each node in
order, connect it (mirrored) to its `k` nearest others by Euclidean
distance.  Vectors are immutable, so distances are taken from the static
node values; `sqrt` monotonicity makes the `dist2` ordering identical to
the source's. -/
def build_knn_graph (nodes : List Node) (k : Nat) : List Node :=
  (nodes.map fun n => n.id).foldl
    (fun acc nid =>
      match acc.find? (fun n => n.id = nid) with
      | none => acc
      | some node =>
        let others := acc.filter fun o => o.id ≠ nid
        let nearest := (sort_asc (fun o => dist2 node.vector o.vector) others).take k
        nearest.foldl
          (fun acc2 nb => add_neighbor (add_neighbor acc2 nid nb.id) nb.id nid)
          acc)
    nodes

/-- The external Delaunay tessellator (`scipy.spatial.Delaunay`): maps
the point list to the simplices (each a list of node indices), or fails
(`QhullError` on degenerate input, or `ImportError` when scipy is
absent).  It is third-party code, modelled as a parameter. -/
abbrev Tess := List Vec → Except String (List (List Nat))

/-- All index pairs `(min a b, max a b)` of one simplex, from the nested
edge-extraction loops of `build_delaunay_graph` / `_connect_delaunay`. -/
def simplex_pairs : List Nat → List (Nat × Nat)
  | [] => []
  | a :: rest => (rest.map fun b => (min a b, max a b)) ++ simplex_pairs rest

/-- The deduplicated edge set of all simplices (the source collects the
pairs into a Python `set`; the model keeps first-occurrence order, which
only affects adjacency-list order). -/
def delaunay_edges (simplices : List (List Nat)) : List (Nat × Nat) :=
  (simplices.foldl (fun acc s => acc ++ simplex_pairs s) []).foldl
    (fun acc e => if acc.contains e then acc else acc ++ [e]) []

/-- Add one Delaunay edge by node index, mirrored (`nodes[a].add_neighbor
(nodes[b])` and back).  The tessellator returns in-range indices; the
model skips an out-of-range index rather than failing. -/
def add_edge_by_index (nodes : List Node) (e : Nat × Nat) : List Node :=
  match nodes[e.1]?, nodes[e.2]? with
  | some a, some b => add_neighbor (add_neighbor nodes a.id b.id) b.id a.id
  | _, _ => nodes

/-- Materialise all Delaunay edges. -/
def apply_delaunay_edges (nodes : List Node) (simplices : List (List Nat)) :
    List Node :=
  (delaunay_edges simplices).foldl add_edge_by_index nodes

/-- From `build_delaunay_graph` in `src/graph_builder.py`: Delaunay mode
with KNN fallback.  Returns `(nodes, topology_mode)`.  Falls back to KNN
(never fails) when there are fewer than 2 nodes, fewer than `dim + 2`
nodes, or the tessellator fails (`scipy` unavailable or a degenerate
configuration — both surface as `Except.error` of the `Tess`
parameter). -/
def build_delaunay_graph (tess : Tess) (nodes : List Node) :
    List Node × String :=
  match nodes with
  | [] => (build_knn_graph nodes (min 5 (nodes.length - 1)), "knn")
  | n0 :: _ =>
    if nodes.length < 2 then
      (build_knn_graph nodes (min 5 (nodes.length - 1)), "knn")
    else if nodes.length < n0.vector.length + 2 then
      (build_knn_graph nodes (min 5 (nodes.length - 1)), "knn")
    else
      match tess (nodes.map fun n => n.vector) with
      | .error _ => (build_knn_graph nodes 5, "knn")
      | .ok simplices => (apply_delaunay_edges nodes simplices, "delaunay")

/-- From `Network._connect_delaunay` in `src/avrs/network.py`: calls the
tessellator with no guard and no `try`/`except`, so a tessellator
failure propagates out of network construction (`Except.error` models
the raised exception). -/
def connect_delaunay (tess : Tess) (nodes : List Node) :
    Except String (List Node) :=
  match tess (nodes.map fun n => n.vector) with
  | .error e => .error e
  | .ok simplices => .ok (apply_delaunay_edges nodes simplices)


/-! ## Concrete fixtures for witnesses and counterexamples -/

/-- Degenerate semantic-similarity instance (any `Sem` works for the
theorems below; witnesses instantiate with this one). -/
def sem0 : Sem := fun _ _ => 0

/-- Degenerate score-function instance for witnesses. -/
def score0 : ScoreFn := fun _ _ _ _ => 0

/-- Face-routing instance that never finds a node, for witnesses. -/
def face0 : FaceFn := fun _ _ => none

/-- A tessellator that always fails, modelling `scipy.spatial.Delaunay`
raising `QhullError` on a degenerate configuration (or scipy being
unavailable). -/
def fail_tess : Tess := fun _ => .error "QhullError"

/-- Dead start node `A` at the origin with alive neighbor `B`. -/
def deadA : Node := { id := "A", vector := [0, 0], neighbors := ["B"], alive := false }

/-- Alive node `B` at `(1,0)` with neighbor `A`. -/
def aliveB : Node := { id := "B", vector := [1, 0], neighbors := ["A"] }

/-- Two-node network with a dead start node. -/
def netDead : Net := [deadA, aliveB]

/-- Alive node `A` at the origin with alive neighbor `B`. -/
def aliveA : Node := { id := "A", vector := [0, 0], neighbors := ["B"] }

/-- Two-node all-alive network. -/
def netAB : Net := [aliveA, aliveB]

/-- Node at `(1,0)` whose only neighbor sits at the mirrored point
`(-1,0)`: both are at distance 1 from the origin target (an exact tie). -/
def tieT1 : Node := { id := "T1", vector := [1, 0], neighbors := ["T2"] }

/-- The tied neighbor at `(-1,0)`. -/
def tieT2 : Node := { id := "T2", vector := [-1, 0], neighbors := ["T1"] }

/-- The two-node tie network. -/
def netTie : Net := [tieT1, tieT2]

/-- Isolated alive `auth` node at `(1,0)`. -/
def auth1 : Node := { id := "A1", vector := [1, 0], role := "auth" }

/-- Isolated alive `compute` node (no `auth` node is alive anywhere). -/
def comp1 : Node := { id := "C1", vector := [1, 0], role := "compute" }

/-- Neighbor used by the load-monotonicity claim, capacity 20. -/
def loadNode : Node := { id := "L", vector := [1, 0] }

/-- State whose every load counter is `l` and whose caches are empty. -/
def const_load_state (l : ℚ) : SimState := ⟨fun _ => l, fun _ => none⟩

/-- The route the `simulator.py` executor produces on `netAB` from `A`
toward `(1,0)`: one greedy hop to `B`, then termination at the local
minimum (checked below by `decide` against `re_route_request`). -/
def c1RouteVal : RERouteResult :=
  { start_node_id := "A"
    path := ["A", "B"]
    hops := [
      { step := 0, node_id := "A", distance2_to_target := 1,
        chosen_next := some "B", method := "greedy" },
      { step := 1, node_id := "B", distance2_to_target := 0,
        is_terminal := true, terminal_reason := "local_minimum" }]
    success := true
    final_node_id := some "B"
    total_hops := 2
    final_distance2 := 0
    optimal_distance2 := some 0 }

/-- Six nodes in 4-D (at least `dim + 2 = 6`), enough for the Delaunay
branch of `build_delaunay_graph` to consult the tessellator. -/
def sixNodes : List Node :=
  [ { id := "P0", vector := [0, 0, 0, 0] }, { id := "P1", vector := [1, 0, 0, 0] },
    { id := "P2", vector := [0, 1, 0, 0] }, { id := "P3", vector := [0, 0, 1, 0] },
    { id := "P4", vector := [0, 0, 0, 1] }, { id := "P5", vector := [1, 1, 1, 1] } ]

/-! ## List helper lemmas -/

theorem mem_insert_desc {α : Type} (f : α → ℚ) (p a : α) (l : List α) :
    a ∈ insert_desc f p l ↔ a = p ∨ a ∈ l := by
  induction l with
  | nil => simp [insert_desc]
  | cons q rest ih =>
    simp only [insert_desc]
    split
    · simp only [List.mem_cons, ih]
      tauto
    · simp only [List.mem_cons]

theorem mem_sort_desc {α : Type} (f : α → ℚ) (a : α) (l : List α) :
    a ∈ sort_desc f l ↔ a ∈ l := by
  induction l with
  | nil => simp [sort_desc]
  | cons p rest ih =>
    simp only [sort_desc, mem_insert_desc, List.mem_cons, ih]

theorem nodup_append_singleton {α : Type} {l : List α} {a : α}
    (h1 : l.Nodup) (h2 : a ∉ l) : (l ++ [a]).Nodup := by
  simp [List.nodup_append, h1, h2]

theorem getLast?_append_singleton {α : Type} (l : List α) (a : α) :
    (l ++ [a]).getLast? = some a := by
  exact List.getLast?_concat l

/-! ## Selector facts -/

/-- Every entry of `score_all_neighbors` is an alive network member that
passed the capacity filter and (when a role is required) the role
filter. -/
theorem score_all_neighbors_mem {cfg : AvrsCfg} {sem : Sem} {net : Net}
    {st : SimState} {current : Node} {target : Vec} {targetRole : Option String}
    {p : Node × ℚ}
    (h : p ∈ score_all_neighbors cfg sem net st current target targetRole) :
    p.1 ∈ net ∧ p.1.alive = true ∧ is_at_capacity st p.1 = false ∧
      role_ok targetRole p.1 = true := by
  unfold score_all_neighbors at h
  rw [mem_sort_desc] at h
  rcases List.mem_map.mp h with ⟨n, hn, rfl⟩
  unfold filter_by_capacity at hn
  rcases List.mem_filter.mp hn with ⟨hn', hcap⟩
  have hga : n ∈ get_alive_neighbors net current ∧ role_ok targetRole n = true := by
    cases targetRole with
    | none => exact ⟨hn', rfl⟩
    | some role =>
      rcases List.mem_filter.mp hn' with ⟨hmem, hrole⟩
      exact ⟨hmem, hrole⟩
  rcases hga with ⟨hga, hrole⟩
  unfold get_alive_neighbors at hga
  rcases List.mem_filter.mp hga with ⟨hmem, hflag⟩
  simp only [Bool.and_eq_true] at hflag
  simp only [Bool.not_eq_true'] at hcap
  exact ⟨hmem, hflag.2, hcap, hrole⟩

/-- Every member of `get_alive_neighbors` is an alive network member. -/
theorem get_alive_neighbors_mem {net : Net} {current n : Node}
    (h : n ∈ get_alive_neighbors net current) :
    n ∈ net ∧ n.alive = true := by
  unfold get_alive_neighbors at h
  rcases List.mem_filter.mp h with ⟨hmem, hflag⟩
  simp only [Bool.and_eq_true] at hflag
  exact ⟨hmem, hflag.2⟩

/-! ## C1 — greedy hops strictly decrease distance to target -/

/-- Whenever `routing_engine.RoutingEngine.select_next_hop` returns a
hop annotated "greedy", the chosen node is strictly closer to the target
than the current node (squared distances order identically). -/
theorem re_select_greedy_improves {cfg : RECfg} {scoreFn : ScoreFn}
    {faceFn : FaceFn} {net : Net} {st : SimState} {current : Node}
    {target : Vec} {visited : List String} {n : Node}
    (h : re_select_next_hop cfg scoreFn faceFn net st current target visited
      = (some n, "greedy")) :
    dist2 n.vector target < dist2 current.vector target := by
  unfold re_select_next_hop at h
  split at h
  · simp at h
  · split at h
    · rename_i p heq
      unfold re_greedy_candidate at heq
      have hp := List.find?_some heq
      simp only [Bool.and_eq_true, decide_eq_true_eq] at hp
      have hn : some p.1 = some n := congrArg Prod.fst h
      injection hn with hn
      subst hn
      exact hp.2
    · split at h
      · simp at h
      · split at h
        · simp at h
        · simp at h


/-! ## C6 — the selector never returns a node at or above capacity -/

/-- A node that fails `is_at_capacity` has `load < capacity`. -/
theorem below_capacity_of_not_at {st : SimState} {n : Node}
    (h : is_at_capacity st n = false) : st.load n.id < n.capacity := by
  unfold is_at_capacity at h
  simpa [decide_eq_false_iff_not, not_le] using h

/-- C6.  Any neighbor returned by `avrs.routing.RoutingEngine.select_next_hop`
— via the cache fast-path or via scoring — satisfies `load < capacity`;
nodes with `load ≥ capacity` are never returned. -/
theorem selector_respects_capacity {cfg : AvrsCfg} {sem : Sem} {net : Net}
    {st : SimState} {current : Node} {target : Vec}
    {targetRole : Option String} {recent_nodes : List String} {n : Node}
    (h : avrs_select_next_hop cfg sem net st current target targetRole
      recent_nodes = some n) :
    st.load n.id < n.capacity := by
  unfold avrs_select_next_hop at h
  split at h
  · -- cache fast-path
    rename_i m heq
    injection h with h
    subst h
    unfold avrs_cached_candidate at heq
    split at heq
    · split at heq
      · have hm := List.find?_some heq
        simp only [Bool.and_eq_true] at hm
        exact below_capacity_of_not_at (by simpa using hm.1.1.2)
      · exact absurd heq (by simp)
    · exact absurd heq (by simp)
  · -- scoring path
    split at h
    · exact absurd h (by simp)
    · rename_i best rest heq
      split at h
      · rename_i p hfind
        injection h with h
        subst h
        have hpmem : p ∈ (best :: rest).filter
            (fun p => decide (best.2 * (19/20) ≤ p.2)) :=
          List.mem_of_find?_eq_some hfind
        have hmem : p ∈ score_all_neighbors cfg sem net st current target targetRole := by
          rw [heq]
          exact (List.mem_filter.mp hpmem).1
        exact below_capacity_of_not_at (score_all_neighbors_mem hmem).2.2.1
      · injection h with h
        subst h
        have hmem : best ∈ score_all_neighbors cfg sem net st current target targetRole := by
          rw [heq]; exact List.mem_cons_self _ _
        exact below_capacity_of_not_at (score_all_neighbors_mem hmem).2.2.1

/-- Witness for C6 on the concrete two-node network: the selector at `A`
returns `B`, whose load 0 is below its capacity 20. -/
theorem selector_respects_capacity_witness :
    SimState.empty.load aliveB.id < aliveB.capacity :=
  @selector_respects_capacity {} sem0 netAB SimState.empty aliveA [1, 0]
    none [] aliveB (by decide)

/-! ## C8 — the termination oracle and distance ties -/

/-- Counterexample to C8 as stated.  At `T1 = (1,0)` with single alive
neighbor `T2 = (-1,0)` and target the origin, both nodes are at squared
distance 1 (an exact tie), the cosine branch is off (similarity to the
zero target is 0), and yet `has_reached_target` reports reached via the
local-minimum branch — the source tests `>=`, so a tie does terminate. -/
theorem oracle_tie_terminates_counterexample :
    avrs_has_reached_target {} netTie tieT1 [0, 0] = true ∧
    (∃ n ∈ get_alive_neighbors netTie tieT1,
      dist2 n.vector [0, 0] = dist2 tieT1.vector [0, 0]) ∧
    cos_sim_gt tieT1.vector [0, 0] ((19 : ℚ)/20) = false :=
  ⟨by decide, ⟨tieT2, by decide, by decide⟩, by decide⟩

/-- C8 (amended).  `avrs.routing.RoutingEngine.has_reached_target`
reports reached by local minimum whenever the alive-neighbor list is
nonempty and no alive neighbor is strictly closer to the target than the
current node — a neighbor at exactly the same distance counts toward
termination rather than preventing it. -/
theorem oracle_local_minimum_allows_ties {cfg : AvrsCfg} {net : Net}
    {current : Node} {target : Vec}
    (h1 : get_alive_neighbors net current ≠ [])
    (h2 : ∀ n ∈ get_alive_neighbors net current,
      dist2 current.vector target ≤ dist2 n.vector target) :
    avrs_has_reached_target cfg net current target = true := by
  unfold avrs_has_reached_target
  have hb : (!(get_alive_neighbors net current).isEmpty &&
      (get_alive_neighbors net current).all fun n =>
        decide (dist2 current.vector target ≤ dist2 n.vector target)) = true := by
    simp only [Bool.and_eq_true, Bool.not_eq_true', List.all_eq_true,
      decide_eq_true_eq]
    refine ⟨?_, h2⟩
    cases hnil : (get_alive_neighbors net current).isEmpty
    · rfl
    · exact absurd (List.isEmpty_iff.mp hnil) h1
  simp [hb]

/-- Witness for the amended C8 at the concrete tie configuration. -/
theorem oracle_local_minimum_allows_ties_witness :
    avrs_has_reached_target {} netTie tieT1 [0, 0] = true :=
  oracle_local_minimum_allows_ties (by decide) (by decide)

/-! ## C9 — score monotonicity in load -/

/-- Counterexample to C9 as stated.  With the default weights, a neighbor
of capacity 20 receives the same score at load 30 and at load 25: the
load ratio is clamped at 1, so decreasing the load from 30 to 25 does
not strictly increase the score. -/
theorem load_decrease_counterexample :
    (25 : ℚ) < 30 ∧
    score_neighbor {} sem0 (const_load_state 25) aliveA loadNode [1, 0] =
      score_neighbor {} sem0 (const_load_state 30) aliveA loadNode [1, 0] ∧
    ¬ (score_neighbor {} sem0 (const_load_state 30) aliveA loadNode [1, 0] <
        score_neighbor {} sem0 (const_load_state 25) aliveA loadNode [1, 0]) :=
  ⟨by decide, by decide, by decide⟩

/-- C9 (amended).  With the default weights, holding the current node,
target, trust, latency and capacity fixed, decreasing a neighbor's load
strictly increases `score_neighbor` provided both load values lie in the
un-clamped range `[0, capacity]` (outside it the load ratio saturates
and the score ties). -/
theorem score_increases_as_load_decreases {sem : Sem} {st : SimState}
    {current n : Node} {target : Vec} {l1 l2 : ℚ}
    (h0 : 0 ≤ l1) (h12 : l1 < l2) (h2 : l2 ≤ n.capacity) :
    score_neighbor {} sem (set_load st n.id l2) current n target <
      score_neighbor {} sem (set_load st n.id l1) current n target := by
  have hcpos : 0 < n.capacity := lt_of_lt_of_le (lt_of_le_of_lt h0 h12) h2
  have hload : ∀ l : ℚ, (set_load st n.id l).load n.id = l := by
    intro l; simp [set_load]
  have hratio : ∀ l : ℚ, 0 ≤ l → l ≤ n.capacity →
      get_load_ratio (set_load st n.id l) n = l / n.capacity := by
    intro l hl0 hlc
    unfold get_load_ratio
    rw [if_neg (not_le.mpr hcpos), hload]
    have hnn : 0 ≤ l / n.capacity := div_nonneg hl0 (le_of_lt hcpos)
    have hle : l / n.capacity ≤ 1 := by
      rw [div_le_one hcpos]; exact hlc
    rw [max_eq_right hnn, min_eq_right hle]
  have hr1 := hratio l1 h0 (le_of_lt (lt_of_lt_of_le h12 h2))
  have hr2 := hratio l2 (le_trans h0 (le_of_lt h12)) h2
  have hdiv : l1 / n.capacity < l2 / n.capacity := by gcongr
  unfold score_neighbor
  dsimp only
  rw [hr1, hr2]
  linarith

/-- Witness for the amended C9: lowering the load of the capacity-20
neighbor from 2 to 1 strictly raises its score. -/
theorem score_increases_as_load_decreases_witness :
    score_neighbor {} sem0 (set_load SimState.empty loadNode.id 2) aliveA
        loadNode [1, 0] <
      score_neighbor {} sem0 (set_load SimState.empty loadNode.id 1) aliveA
        loadNode [1, 0] :=
  score_increases_as_load_decreases (by decide) (by decide) (by decide)

/-! ## Executor-step facts -/

/-- Any node the avrs selector returns is an alive member of the
network. -/
theorem avrs_select_some_mem {cfg : AvrsCfg} {sem : Sem} {net : Net}
    {st : SimState} {current : Node} {target : Vec}
    {targetRole : Option String} {recent_nodes : List String} {n : Node}
    (h : avrs_select_next_hop cfg sem net st current target targetRole
      recent_nodes = some n) :
    n ∈ net ∧ n.alive = true := by
  unfold avrs_select_next_hop at h
  split at h
  · rename_i m heq
    injection h with h
    subst h
    unfold avrs_cached_candidate at heq
    split at heq
    · split at heq
      · exact get_alive_neighbors_mem (List.mem_of_find?_eq_some heq)
      · exact absurd heq (by simp)
    · exact absurd heq (by simp)
  · split at h
    · exact absurd h (by simp)
    · rename_i best rest heq
      split at h
      · rename_i p hfind
        injection h with h
        subst h
        have hpmem : p ∈ score_all_neighbors cfg sem net st current target targetRole := by
          rw [heq]
          exact (List.mem_filter.mp (List.mem_of_find?_eq_some hfind)).1
        exact ⟨(score_all_neighbors_mem hpmem).1, (score_all_neighbors_mem hpmem).2.1⟩
      · injection h with h
        subst h
        have hmem : best ∈ score_all_neighbors cfg sem net st current target targetRole := by
          rw [heq]; exact List.mem_cons_self _ _
        exact ⟨(score_all_neighbors_mem hmem).1, (score_all_neighbors_mem hmem).2.1⟩

/-- Any node the executor's post-selector visited-filter keeps is an
alive, unvisited member of the network (the `scored` list may have been
computed at a different load state, which does not affect membership). -/
theorem avrs_next_choice_some {cfg : AvrsCfg} {sem : Sem} {net : Net}
    {st stA : SimState} {current : Node} {target : Vec}
    {targetRole : Option String} {scored : List (Node × ℚ)}
    {visited : List String} {n : Node}
    (hsc : scored = score_all_neighbors cfg sem net stA current target targetRole)
    (h : avrs_next_choice cfg sem net st current target targetRole scored
      visited = some n) :
    n ∈ net ∧ n.alive = true ∧ visited.contains n.id = false := by
  unfold avrs_next_choice at h
  split at h
  · rename_i m heq
    split at h
    · rcases Option.map_eq_some'.mp h with ⟨p, hfind, hp⟩
      subst hp
      have hpred := List.find?_some hfind
      simp only [Bool.not_eq_true'] at hpred
      have hpmem : p ∈ score_all_neighbors cfg sem net stA current target targetRole := by
        rw [← hsc]
        exact List.mem_of_find?_eq_some hfind
      exact ⟨(score_all_neighbors_mem hpmem).1,
        (score_all_neighbors_mem hpmem).2.1, hpred⟩
    · rename_i hvis
      injection h with h
      subst h
      rcases avrs_select_some_mem heq with ⟨hmem, halive⟩
      simp only [Bool.not_eq_true] at hvis
      exact ⟨hmem, halive, hvis⟩
  · exact absurd h (by simp)

/-- Specification of the loop body's break/return outcomes: the finished
result extends the path by exactly the current node, sets `total_hops`
to `step + 1` or leaves it unchanged, and reports success only from the
termination branch — with the current node as final node and the role
filter satisfied. -/
theorem avrs_step_done {cfg : AvrsCfg} {sem : Sem} {net : Net}
    {targetRole : Option String} {target : Vec} {step : Nat} {st : SimState}
    {current : Node} {visited : List String} {acc : AvrsRouteResult}
    {r : AvrsRouteResult}
    (h : avrs_step cfg sem net targetRole target step st current visited acc
      = .done r) :
    r.path = acc.path ++ [current.id] ∧
    (r.total_hops = step + 1 ∨ r.total_hops = acc.total_hops) ∧
    (r.success = true →
      r.final_node_id = some current.id ∧ role_ok targetRole current = true) := by
  unfold avrs_step at h
  dsimp only at h
  split at h
  · split at h
    · injection h with h
      subst h
      exact ⟨rfl, Or.inr rfl, by simp⟩
    · cases h
  · split at h
    · rename_i hguard
      injection h with h
      subst h
      simp only [Bool.and_eq_true] at hguard
      exact ⟨rfl, Or.inl rfl, fun _ => ⟨rfl, hguard.2⟩⟩
    · split at h
      · injection h with h
        subst h
        exact ⟨rfl, Or.inl rfl, by simp⟩
      · cases h

/-- Specification of the loop body's continue outcome: the visited set
gains exactly the current id, the accumulator extends the path by the
current node and keeps `total_hops` and `success`, and the new current
node is an alive, unvisited network member. -/
theorem avrs_step_next {cfg : AvrsCfg} {sem : Sem} {net : Net}
    {targetRole : Option String} {target : Vec} {step : Nat} {st : SimState}
    {current : Node} {visited : List String} {acc : AvrsRouteResult}
    {st' : SimState} {cur' : Node} {vis' : List String} {acc' : AvrsRouteResult}
    (h : avrs_step cfg sem net targetRole target step st current visited acc
      = .next st' cur' vis' acc') :
    vis' = current.id :: visited ∧
    acc'.path = acc.path ++ [current.id] ∧
    acc'.total_hops = acc.total_hops ∧
    acc'.success = acc.success ∧
    cur' ∈ net ∧ cur'.alive = true ∧ vis'.contains cur'.id = false := by
  unfold avrs_step at h
  dsimp only at h
  split at h
  · split at h
    · cases h
    · rename_i p rest heq
      injection h with h1 h2 h3 h4
      subst h1; subst h2; subst h3; subst h4
      have hpmem : p ∈ (score_all_neighbors cfg sem net st current target
          targetRole).filter
            (fun p => !((current.id :: visited).contains p.1.id)) := by
        rw [heq]; exact List.mem_cons_self _ _
      rcases List.mem_filter.mp hpmem with ⟨hmem, hpred⟩
      simp only [Bool.not_eq_true'] at hpred
      exact ⟨rfl, rfl, rfl, rfl, (score_all_neighbors_mem hmem).1,
        (score_all_neighbors_mem hmem).2.1, hpred⟩
  · split at h
    · cases h
    · split at h
      · cases h
      · rename_i n heq
        injection h with h1 h2 h3 h4
        subst h1; subst h2; subst h3; subst h4
        rcases avrs_next_choice_some rfl heq with ⟨hmem, halive, hvis⟩
        exact ⟨rfl, rfl, rfl, rfl, hmem, halive, hvis⟩

/-- Bridge between the executable `List.contains` and membership. -/
theorem contains_eq_false_iff {l : List String} {a : String} :
    l.contains a = false ↔ a ∉ l := by
  simp

/-- An alive network member witnesses `alive_in`. -/
theorem alive_in_of_mem {net : Net} {n : Node}
    (hmem : n ∈ net) (halive : n.alive = true) : alive_in net n.id = true := by
  unfold alive_in
  rw [List.any_eq_true]
  exact ⟨n, hmem, by simp [halive]⟩

/-- The avrs loop preserves path distinctness: entries mirror the visited
set and the current node is always unvisited. -/
theorem avrs_loop_nodup {cfg : AvrsCfg} {sem : Sem} {net : Net}
    {targetRole : Option String} {target : Vec} :
    ∀ (fuel step : Nat) (st : SimState) (current : Node) (visited : List String)
      (acc : AvrsRouteResult),
      acc.path.Nodup →
      (∀ id ∈ acc.path, id ∈ visited) →
      current.id ∉ visited →
      (avrs_loop cfg sem net targetRole target fuel step st current visited
        acc).path.Nodup := by
  intro fuel
  induction fuel with
  | zero =>
    intro step st current visited acc h1 _ _
    simpa [avrs_loop] using h1
  | succ fuel ih =>
    intro step st current visited acc h1 h2 h3
    rw [avrs_loop]
    cases hstep : avrs_step cfg sem net targetRole target step st current
        visited acc with
    | done r =>
      rcases avrs_step_done hstep with ⟨hpath, -, -⟩
      rw [hpath]
      exact nodup_append_singleton h1 (fun hmem => h3 (h2 _ hmem))
    | next st' cur' vis' acc' =>
      rcases avrs_step_next hstep with ⟨hv, hp, -, -, -, -, hnvis⟩
      apply ih
      · rw [hp]
        exact nodup_append_singleton h1 (fun hmem => h3 (h2 _ hmem))
      · intro id hid
        rw [hp] at hid
        rcases List.mem_append.mp hid with hmem | hmem
        · rw [hv]
          exact List.mem_cons_of_mem _ (h2 _ hmem)
        · rw [hv, List.mem_singleton.mp hmem]
          exact List.mem_cons_self _ _
      · exact contains_eq_false_iff.mp hnvis

/-- The avrs loop respects the hop cap: `total_hops` never exceeds
`MAX_HOPS` when `step` and the remaining fuel sum to it. -/
theorem avrs_loop_hops {cfg : AvrsCfg} {sem : Sem} {net : Net}
    {targetRole : Option String} {target : Vec} :
    ∀ (fuel step : Nat) (st : SimState) (current : Node) (visited : List String)
      (acc : AvrsRouteResult),
      step + fuel = MAX_HOPS →
      acc.total_hops ≤ MAX_HOPS →
      (avrs_loop cfg sem net targetRole target fuel step st current visited
        acc).total_hops ≤ MAX_HOPS := by
  intro fuel
  induction fuel with
  | zero =>
    intro step st current visited acc _ _
    simp [avrs_loop]
  | succ fuel ih =>
    intro step st current visited acc hfs hacc
    rw [avrs_loop]
    cases hstep : avrs_step cfg sem net targetRole target step st current
        visited acc with
    | done r =>
      rcases avrs_step_done hstep with ⟨-, hth, -⟩
      rcases hth with hth | hth <;> rw [hth] <;> omega
    | next st' cur' vis' acc' =>
      rcases avrs_step_next hstep with ⟨-, -, hth, -, -, -, -⟩
      exact ih (step + 1) st' cur' vis' acc' (by omega) (by omega)

/-- If the avrs loop reports success with a required role, the final
node id belongs to a network node with that role, and it is the last
path entry. -/
theorem avrs_loop_role {cfg : AvrsCfg} {sem : Sem} {net : Net} {role : String}
    {target : Vec} :
    ∀ (fuel step : Nat) (st : SimState) (current : Node) (visited : List String)
      (acc : AvrsRouteResult),
      current ∈ net →
      acc.success = false →
      (avrs_loop cfg sem net (some role) target fuel step st current visited
        acc).success = true →
      ∃ n, n ∈ net ∧ n.role = role ∧
        (avrs_loop cfg sem net (some role) target fuel step st current visited
          acc).final_node_id = some n.id ∧
        (avrs_loop cfg sem net (some role) target fuel step st current visited
          acc).path.getLast? = some n.id := by
  intro fuel
  induction fuel with
  | zero =>
    intro step st current visited acc _ hacc hs
    rw [avrs_loop] at hs
    simp at hs
  | succ fuel ih =>
    intro step st current visited acc hcur hacc hs
    rw [avrs_loop] at hs ⊢
    cases hstep : avrs_step cfg sem net (some role) target step st current
        visited acc with
    | done r =>
      rw [hstep] at hs
      dsimp only at hs ⊢
      rcases avrs_step_done hstep with ⟨hpath, -, hsucc⟩
      rcases hsucc hs with ⟨hfinal, hrole⟩
      refine ⟨current, hcur, ?_, hfinal, ?_⟩
      · simpa [role_ok] using hrole
      · rw [hpath]
        exact getLast?_append_singleton _ _
    | next st' cur' vis' acc' =>
      rw [hstep] at hs
      dsimp only at hs ⊢
      rcases avrs_step_next hstep with ⟨-, -, -, hsu, hmem, -, -⟩
      exact ih (step + 1) st' cur' vis' acc' hmem (hsu.trans hacc) hs

/-- Appending one element preserves an all-property of a path's tail,
given the property for the appended element whenever the path was
nonempty. -/
theorem drop_one_append_all {P : String → Prop} {l : List String} {a : String}
    (h1 : ∀ id ∈ l.drop 1, P id) (h2 : l ≠ [] → P a) :
    ∀ id ∈ (l ++ [a]).drop 1, P id := by
  cases l with
  | nil => simp
  | cons b t =>
    intro id hid
    simp only [List.cons_append, List.drop_one, List.tail_cons] at hid
    rcases List.mem_append.mp hid with hmem | hmem
    · exact h1 id (by simpa using hmem)
    · rw [List.mem_singleton.mp hmem]
      exact h2 (by simp)

/-- Every path entry after the first produced by the avrs loop belongs
to an alive network node. -/
theorem avrs_loop_alive_tail {cfg : AvrsCfg} {sem : Sem} {net : Net}
    {targetRole : Option String} {target : Vec} :
    ∀ (fuel step : Nat) (st : SimState) (current : Node) (visited : List String)
      (acc : AvrsRouteResult),
      (∀ id ∈ acc.path.drop 1, alive_in net id = true) →
      (acc.path ≠ [] → current ∈ net ∧ current.alive = true) →
      ∀ id ∈ (avrs_loop cfg sem net targetRole target fuel step st current
        visited acc).path.drop 1, alive_in net id = true := by
  intro fuel
  induction fuel with
  | zero =>
    intro step st current visited acc h1 _
    simpa [avrs_loop] using h1
  | succ fuel ih =>
    intro step st current visited acc h1 h2
    rw [avrs_loop]
    cases hstep : avrs_step cfg sem net targetRole target step st current
        visited acc with
    | done r =>
      rcases avrs_step_done hstep with ⟨hpath, -, -⟩
      rw [hpath]
      exact drop_one_append_all h1
        (fun hne => alive_in_of_mem (h2 hne).1 (h2 hne).2)
    | next st' cur' vis' acc' =>
      rcases avrs_step_next hstep with ⟨-, hp, -, -, hmem, halive, -⟩
      apply ih
      · rw [hp]
        exact drop_one_append_all h1
          (fun hne => alive_in_of_mem (h2 hne).1 (h2 hne).2)
      · intro _
        exact ⟨hmem, halive⟩

/-- Specification of the simulator body's break outcomes: no crash means
the current node passed the no-cycling assertion, and any finished
result extends the path by the current node and sets
`total_hops = step + 1`. -/
theorem re_sim_step_done {cfg : RECfg} {scoreFn : ScoreFn} {faceFn : FaceFn}
    {net : Net} {target : Vec} {step : Nat} {st : SimState} {current : Node}
    {visited : List String} {acc : RERouteResult} {r : RERouteResult}
    (h : re_sim_step cfg scoreFn faceFn net target step st current visited acc
      = .done r) :
    visited.contains current.id = false ∧
    r.path = acc.path ++ [current.id] ∧
    r.total_hops = step + 1 := by
  unfold re_sim_step at h
  dsimp only at h
  split at h
  · cases h
  · rename_i hvis
    rw [Bool.not_eq_true] at hvis
    split at h
    · injection h with h
      subst h
      exact ⟨hvis, rfl, rfl⟩
    · split at h
      · injection h with h
        subst h
        exact ⟨hvis, rfl, rfl⟩
      · cases h

/-- Specification of the simulator body's continue outcome: the current
node passed the no-cycling assertion, the visited set gains exactly the
current id, and the accumulator extends the path by the current node
while keeping `total_hops`. -/
theorem re_sim_step_next {cfg : RECfg} {scoreFn : ScoreFn} {faceFn : FaceFn}
    {net : Net} {target : Vec} {step : Nat} {st : SimState} {current : Node}
    {visited : List String} {acc : RERouteResult} {st' : SimState}
    {cur' : Node} {vis' : List String} {acc' : RERouteResult}
    (h : re_sim_step cfg scoreFn faceFn net target step st current visited acc
      = .next st' cur' vis' acc') :
    visited.contains current.id = false ∧
    vis' = current.id :: visited ∧
    acc'.path = acc.path ++ [current.id] ∧
    acc'.total_hops = acc.total_hops := by
  unfold re_sim_step at h
  dsimp only at h
  split at h
  · cases h
  · rename_i hvis
    rw [Bool.not_eq_true] at hvis
    split at h
    · cases h
    · split at h
      · cases h
      · injection h with h1 h2 h3 h4
        subst h1; subst h2; subst h3; subst h4
        exact ⟨hvis, rfl, rfl, rfl⟩

/-- Every route the simulator loop completes (no `AssertionError`) has a
duplicate-free path. -/
theorem re_sim_loop_nodup {cfg : RECfg} {scoreFn : ScoreFn} {faceFn : FaceFn}
    {net : Net} {target : Vec} :
    ∀ (fuel step : Nat) (st : SimState) (current : Node) (visited : List String)
      (acc : RERouteResult),
      acc.path.Nodup →
      (∀ id ∈ acc.path, id ∈ visited) →
      ∀ r, re_sim_loop cfg scoreFn faceFn net target fuel step st current
        visited acc = some r → r.path.Nodup := by
  intro fuel
  induction fuel with
  | zero =>
    intro step st current visited acc h1 _ r hr
    rw [re_sim_loop] at hr
    injection hr with hr
    subst hr
    simpa using h1
  | succ fuel ih =>
    intro step st current visited acc h1 h2 r hr
    rw [re_sim_loop] at hr
    cases hstep : re_sim_step cfg scoreFn faceFn net target step st current
        visited acc with
    | crashed => rw [hstep] at hr; cases hr
    | done r' =>
      rw [hstep] at hr
      injection hr with hr
      subst hr
      rcases re_sim_step_done hstep with ⟨hvis, hpath, -⟩
      rw [hpath]
      exact nodup_append_singleton h1
        (fun hmem => contains_eq_false_iff.mp hvis (h2 _ hmem))
    | next st' cur' vis' acc' =>
      rw [hstep] at hr
      rcases re_sim_step_next hstep with ⟨hvis, hv, hp, -⟩
      refine ih (step + 1) st' cur' vis' acc' ?_ ?_ r hr
      · rw [hp]
        exact nodup_append_singleton h1
          (fun hmem => contains_eq_false_iff.mp hvis (h2 _ hmem))
      · intro id hid
        rw [hp] at hid
        rcases List.mem_append.mp hid with hmem | hmem
        · rw [hv]
          exact List.mem_cons_of_mem _ (h2 _ hmem)
        · rw [hv, List.mem_singleton.mp hmem]
          exact List.mem_cons_self _ _

/-- Every route the simulator loop completes respects the engine's hop
cap. -/
theorem re_sim_loop_hops {cfg : RECfg} {scoreFn : ScoreFn} {faceFn : FaceFn}
    {net : Net} {target : Vec} :
    ∀ (fuel step : Nat) (st : SimState) (current : Node) (visited : List String)
      (acc : RERouteResult),
      step + fuel = cfg.max_hops →
      acc.total_hops ≤ cfg.max_hops →
      ∀ r, re_sim_loop cfg scoreFn faceFn net target fuel step st current
        visited acc = some r → r.total_hops ≤ cfg.max_hops := by
  intro fuel
  induction fuel with
  | zero =>
    intro step st current visited acc _ _ r hr
    rw [re_sim_loop] at hr
    injection hr with hr
    subst hr
    simp
  | succ fuel ih =>
    intro step st current visited acc hfs hacc r hr
    rw [re_sim_loop] at hr
    cases hstep : re_sim_step cfg scoreFn faceFn net target step st current
        visited acc with
    | crashed => rw [hstep] at hr; cases hr
    | done r' =>
      rw [hstep] at hr
      injection hr with hr
      subst hr
      rcases re_sim_step_done hstep with ⟨-, -, hth⟩
      omega
    | next st' cur' vis' acc' =>
      rw [hstep] at hr
      rcases re_sim_step_next hstep with ⟨-, -, -, hth⟩
      exact ih (step + 1) st' cur' vis' acc' (by omega) (by omega) r hr

/-! ## C2 — completed routes never repeat a node id -/

/-- C2.  Every completed route has a duplicate-free path
(`len(path) == len(set(path))`), covering all hop kinds.  First
conjunct: the `simulator.py` executor, whose selector produces greedy,
fallback, cache and face hops — for any score function and any face
oracle, a returned (non-`AssertionError`) route has `path.Nodup` (`none`,
the assertion, maps to the trivially distinct `[]`).  Second conjunct:
the avrs executor (cache fast-path and self-healing included) always
returns a duplicate-free path. -/
theorem completed_routes_have_distinct_paths :
    (∀ (cfg : RECfg) (scoreFn : ScoreFn) (faceFn : FaceFn) (net : Net)
      (st : SimState) (start : Node) (target : Vec),
      (((re_route_request cfg scoreFn faceFn net st start target).map
        (fun r => r.path)).getD []).Nodup) ∧
    (∀ (cfg : AvrsCfg) (sem : Sem) (net : Net) (st : SimState) (start : Node)
      (targetRole : Option String) (target : Vec),
      (avrs_route_request cfg sem net st start targetRole target).path.Nodup) := by
  constructor
  · intro cfg scoreFn faceFn net st start target
    cases hr : re_route_request cfg scoreFn faceFn net st start target with
    | none => simp
    | some r =>
      simp only [Option.map_some', Option.getD_some]
      unfold re_route_request at hr
      dsimp only at hr
      exact re_sim_loop_nodup cfg.max_hops 0 st start [] _ (by simp) (by simp)
        r hr
  · intro cfg sem net st start targetRole target
    unfold avrs_route_request
    dsimp only
    split
    · simp
    · exact avrs_loop_nodup MAX_HOPS 0 st start [] _ (by simp) (by simp)
        (by simp)

/-! ## C3 — termination within the hop cap -/

/-- C3.  Both route executors are total (the model loops are structural
recursions on `MAX_HOPS` fuel) and every produced route satisfies
`total_hops ≤ MAX_HOPS`: the avrs executor against its `MAX_HOPS = 50`
class constant, and the `simulator.py` executor against the engine's
`max_hops` (constructor default 50, `RECfg.max_hops`). -/
theorem routes_respect_hop_cap :
    (∀ (cfg : AvrsCfg) (sem : Sem) (net : Net) (st : SimState) (start : Node)
      (targetRole : Option String) (target : Vec),
      (avrs_route_request cfg sem net st start targetRole target).total_hops ≤
        MAX_HOPS) ∧
    (∀ (cfg : RECfg) (scoreFn : ScoreFn) (faceFn : FaceFn) (net : Net)
      (st : SimState) (start : Node) (target : Vec),
      ((re_route_request cfg scoreFn faceFn net st start target).map
        (fun r => r.total_hops)).getD 0 ≤ cfg.max_hops) := by
  constructor
  · intro cfg sem net st start targetRole target
    unfold avrs_route_request
    dsimp only
    split
    · simp [MAX_HOPS]
    · exact avrs_loop_hops MAX_HOPS 0 st start [] _ (by simp) (by simp)
  · intro cfg scoreFn faceFn net st start target
    cases hr : re_route_request cfg scoreFn faceFn net st start target with
    | none => simp
    | some r =>
      simp only [Option.map_some', Option.getD_some]
      unfold re_route_request at hr
      dsimp only at hr
      exact re_sim_loop_hops cfg.max_hops 0 st start [] _ (by simp) (by simp)
        r hr

/-! ## C4 — on success, the final node has the required role -/

/-- C4.  If the avrs executor reports success for a request whose
required role is `role`, then the network contains a node with the final
node's id whose role is exactly `role`, and that id is the last entry of
the recorded path. -/
theorem success_final_node_has_required_role {cfg : AvrsCfg} {sem : Sem}
    {net : Net} {st : SimState} {start : Node} {role : String} {target : Vec}
    (hstart : start ∈ net)
    (hsucc : (avrs_route_request cfg sem net st start (some role)
      target).success = true) :
    ∃ n, n ∈ net ∧ n.role = role ∧
      (avrs_route_request cfg sem net st start (some role)
        target).final_node_id = some n.id ∧
      (avrs_route_request cfg sem net st start (some role)
        target).path.getLast? = some n.id := by
  unfold avrs_route_request at hsucc ⊢
  dsimp only at hsucc ⊢
  by_cases hse : has_alive_nodes net role = true
  · rw [hse] at hsucc ⊢
    simp only [Bool.not_true, Bool.false_eq_true, if_false] at hsucc ⊢
    exact avrs_loop_role MAX_HOPS 0 st start [] _ hstart (by simp) hsucc
  · rw [Bool.not_eq_true] at hse
    rw [hse] at hsucc
    simp at hsucc

/-- Witness for C4: the single-node `auth` network routes successfully
and the final node indeed carries the `auth` role. -/
theorem success_final_node_has_required_role_witness :
    ∃ n, n ∈ [auth1] ∧ n.role = "auth" ∧
      (avrs_route_request {} sem0 [auth1] SimState.empty auth1 (some "auth")
        [1, 0]).final_node_id = some n.id ∧
      (avrs_route_request {} sem0 [auth1] SimState.empty auth1 (some "auth")
        [1, 0]).path.getLast? = some n.id :=
  success_final_node_has_required_role (by simp) (by decide)

/-! ## C5 — empty required section fails before any hop -/

/-- C5.  When the request's required role has no alive node in the
network, the avrs executor returns the section failure immediately:
no hop is taken (`total_hops = 0`, empty path), `success = false`, the
final node is the start node, and the section-failure reason is
recorded. -/
theorem empty_section_fails_before_hops {cfg : AvrsCfg} {sem : Sem} {net : Net}
    {st : SimState} {start : Node} {role : String} {target : Vec}
    (h : has_alive_nodes net role = false) :
    (avrs_route_request cfg sem net st start (some role) target).success
        = false ∧
    (avrs_route_request cfg sem net st start (some role) target).total_hops
        = 0 ∧
    (avrs_route_request cfg sem net st start (some role) target).final_node_id
        = some start.id ∧
    (avrs_route_request cfg sem net st start (some role) target).path = [] ∧
    (avrs_route_request cfg sem net st start (some role) target).failures
        ≠ [] := by
  unfold avrs_route_request
  dsimp only
  rw [h]
  simp

/-- Witness for C5: requesting role `auth` in the all-`compute` network
fails with zero hops at the start node. -/
theorem empty_section_fails_before_hops_witness :
    (avrs_route_request {} sem0 [comp1] SimState.empty comp1 (some "auth")
        [1, 0]).success = false ∧
    (avrs_route_request {} sem0 [comp1] SimState.empty comp1 (some "auth")
        [1, 0]).total_hops = 0 ∧
    (avrs_route_request {} sem0 [comp1] SimState.empty comp1 (some "auth")
        [1, 0]).final_node_id = some comp1.id ∧
    (avrs_route_request {} sem0 [comp1] SimState.empty comp1 (some "auth")
        [1, 0]).path = [] ∧
    (avrs_route_request {} sem0 [comp1] SimState.empty comp1 (some "auth")
        [1, 0]).failures ≠ [] :=
  empty_section_fails_before_hops (by decide)

/-! ## C7 — dead nodes in recorded paths -/

/-- Counterexample to C7 as stated.  Starting a route at the dead node
`A` (failed before the route), the avrs executor appends `A` to the path
before its liveness check, self-heals to `B`, and completes
successfully — so a failed node's id does appear in a completed route's
path. -/
theorem dead_start_in_path_counterexample :
    deadA.alive = false ∧
    (avrs_route_request {} sem0 netDead SimState.empty deadA none
      [1, 0]).success = true ∧
    deadA.id ∈ (avrs_route_request {} sem0 netDead SimState.empty deadA none
      [1, 0]).path :=
  ⟨rfl, by decide, by decide⟩

/-- C7 (amended).  In the sequential model (liveness is fixed during one
route), every path entry other than the first refers to an alive network
node: only the start node, which the executor records before checking
liveness, can be dead. -/
theorem path_tail_nodes_alive {cfg : AvrsCfg} {sem : Sem} {net : Net}
    {st : SimState} {start : Node} {targetRole : Option String} {target : Vec} :
    ∀ id ∈ (avrs_route_request cfg sem net st start targetRole
      target).path.drop 1, alive_in net id = true := by
  unfold avrs_route_request
  dsimp only
  split
  · simp
  · exact avrs_loop_alive_tail MAX_HOPS 0 st start [] _ (by simp) (by simp)

/-- Witness for the amended C7 on the dead-start route: the second path
entry `B` is an alive network node. -/
theorem path_tail_nodes_alive_witness : alive_in netDead "B" = true :=
  @path_tail_nodes_alive {} sem0 netDead SimState.empty deadA none [1, 0]
    "B" (by decide)

/-! ## C10 — Delaunay-mode fallback behavior -/

/-- Counterexample to C10 as stated.  `avrs.network.Network._connect_delaunay`
calls the tessellator with no guard and no exception handler: on a
three-node 2-D configuration (fewer than `dim + 2` points, on which the
tessellator fails), the construction propagates the failure instead of
falling back to KNN — modelled as the `Except.error` escaping. -/
theorem connect_delaunay_raises_counterexample :
    connect_delaunay fail_tess [tieT1, tieT2, aliveA] = .error "QhullError" :=
  rfl

/-- C10 (amended).  `graph_builder.build_delaunay_graph` indeed never
fails and falls back to a KNN build, reporting mode `"knn"`, when the
tessellator fails (degenerate configuration or scipy unavailable) or
there are fewer than `dim + 2` nodes — but the avrs variant
`Network._connect_delaunay` propagates the tessellator failure
unguarded. -/
theorem delaunay_fallback_amended :
    (∀ (tess : Tess) (nodes : List Node) (e : String),
      tess (nodes.map fun n => n.vector) = .error e →
      (build_delaunay_graph tess nodes).2 = "knn") ∧
    (∀ (tess : Tess) (n0 : Node) (rest : List Node),
      (n0 :: rest).length < n0.vector.length + 2 →
      (build_delaunay_graph tess (n0 :: rest)).2 = "knn") ∧
    (∀ (tess : Tess) (nodes : List Node) (e : String),
      tess (nodes.map fun n => n.vector) = .error e →
      connect_delaunay tess nodes = .error e) := by
  refine ⟨?_, ?_, ?_⟩
  · intro tess nodes e h
    unfold build_delaunay_graph
    cases nodes with
    | nil => rfl
    | cons n0 rest =>
      dsimp only
      by_cases h2 : (n0 :: rest).length < 2
      · rw [if_pos h2]
      · rw [if_neg h2]
        by_cases h3 : (n0 :: rest).length < n0.vector.length + 2
        · rw [if_pos h3]
        · rw [if_neg h3, h]
  · intro tess n0 rest hlen
    unfold build_delaunay_graph
    dsimp only
    by_cases h2 : (n0 :: rest).length < 2
    · rw [if_pos h2]
    · rw [if_neg h2, if_pos hlen]
  · intro tess nodes e h
    unfold connect_delaunay
    rw [h]

/-- Witness for the amended C10: with a failing tessellator,
`build_delaunay_graph` reports the KNN fallback both on six 4-D nodes
(tessellation failure) and on a single node (too few points), while
`connect_delaunay` propagates the error. -/
theorem delaunay_fallback_amended_witness :
    (build_delaunay_graph fail_tess sixNodes).2 = "knn" ∧
    (build_delaunay_graph fail_tess [tieT1]).2 = "knn" ∧
    connect_delaunay fail_tess sixNodes = .error "QhullError" :=
  ⟨delaunay_fallback_amended.1 fail_tess sixNodes "QhullError" rfl,
   delaunay_fallback_amended.2.1 fail_tess tieT1 [] (by decide),
   delaunay_fallback_amended.2.2 fail_tess sixNodes "QhullError" rfl⟩

/-! ## C1 — greedy hops strictly decrease distance to target -/

/-- The selector returns `None` only with the method string "none". -/
theorem re_select_none_method {cfg : RECfg} {scoreFn : ScoreFn}
    {faceFn : FaceFn} {net : Net} {st : SimState} {current : Node}
    {target : Vec} {visited : List String} {m : String}
    (h : re_select_next_hop cfg scoreFn faceFn net st current target visited
      = (none, m)) : m = "none" := by
  unfold re_select_next_hop at h
  split at h
  · simp at h
  · split at h
    · simp at h
    · split at h
      · simp at h
      · split at h
        · simp at h
        · simpa using congrArg Prod.snd h.symm

/-- Break outcomes append exactly one hop record, carrying the current
node's distance, and never annotated "greedy" (terminal hops carry the
empty method, failure hops the selector's "none"). -/
theorem re_sim_step_done_hops {cfg : RECfg} {scoreFn : ScoreFn}
    {faceFn : FaceFn} {net : Net} {target : Vec} {step : Nat} {st : SimState}
    {current : Node} {visited : List String} {acc : RERouteResult}
    {r : RERouteResult}
    (h : re_sim_step cfg scoreFn faceFn net target step st current visited acc
      = .done r) :
    ∃ hop : REHop, r.hops = acc.hops ++ [hop] ∧
      hop.distance2_to_target = dist2 current.vector target ∧
      hop.method ≠ "greedy" := by
  unfold re_sim_step at h
  dsimp only at h
  split at h
  · cases h
  · split at h
    · injection h with h
      subst h
      exact ⟨_, rfl, rfl, fun hc => (by decide : ("" : String) ≠ "greedy") hc⟩
    · split at h
      · rename_i m hsel
        injection h with h
        subst h
        refine ⟨_, rfl, rfl, ?_⟩
        rw [re_select_none_method hsel]
        exact fun hc => (by decide : ("none" : String) ≠ "greedy") hc
      · cases h

/-- The continue outcome appends exactly one hop record with the current
node's distance, and a "greedy" annotation on it forces the chosen next
node to be strictly closer to the target. -/
theorem re_sim_step_next_hops {cfg : RECfg} {scoreFn : ScoreFn}
    {faceFn : FaceFn} {net : Net} {target : Vec} {step : Nat} {st : SimState}
    {current : Node} {visited : List String} {acc : RERouteResult}
    {st' : SimState} {cur' : Node} {vis' : List String} {acc' : RERouteResult}
    (h : re_sim_step cfg scoreFn faceFn net target step st current visited acc
      = .next st' cur' vis' acc') :
    ∃ hop : REHop, acc'.hops = acc.hops ++ [hop] ∧
      hop.distance2_to_target = dist2 current.vector target ∧
      (hop.method = "greedy" →
        dist2 cur'.vector target < dist2 current.vector target) := by
  unfold re_sim_step at h
  dsimp only at h
  split at h
  · cases h
  · split at h
    · cases h
    · split at h
      · cases h
      · rename_i n m hsel
        injection h with h1 h2 h3 h4
        subst h1; subst h2; subst h3; subst h4
        refine ⟨_, rfl, rfl, ?_⟩
        intro hg
        simp only at hg
        rw [hg] at hsel
        exact re_select_greedy_improves hsel

/-- The simulator loop preserves the greedy-decrease chain over the hop
records. -/
theorem re_sim_loop_greedy_chain {cfg : RECfg} {scoreFn : ScoreFn}
    {faceFn : FaceFn} {net : Net} {target : Vec} :
    ∀ (fuel step : Nat) (st : SimState) (current : Node) (visited : List String)
      (acc : RERouteResult),
      List.Chain' greedy_hop_decreasing acc.hops →
      (∀ h, acc.hops.getLast? = some h → h.method = "greedy" →
        dist2 current.vector target < h.distance2_to_target) →
      ∀ r, re_sim_loop cfg scoreFn faceFn net target fuel step st current
        visited acc = some r →
      List.Chain' greedy_hop_decreasing r.hops := by
  intro fuel
  induction fuel with
  | zero =>
    intro step st current visited acc h1 _ r hr
    rw [re_sim_loop] at hr
    injection hr with hr
    subst hr
    simpa using h1
  | succ fuel ih =>
    intro step st current visited acc h1 h2 r hr
    rw [re_sim_loop] at hr
    cases hstep : re_sim_step cfg scoreFn faceFn net target step st current
        visited acc with
    | crashed => rw [hstep] at hr; cases hr
    | done r' =>
      rw [hstep] at hr
      injection hr with hr
      subst hr
      rcases re_sim_step_done_hops hstep with ⟨hop, hhops, hd, -⟩
      rw [hhops]
      rw [List.chain'_append]
      refine ⟨h1, by simp, ?_⟩
      intro x hx y hy
      rw [List.head?_cons, Option.mem_some_iff] at hy
      subst hy
      intro hgx
      rw [hd]
      exact h2 x hx hgx
    | next st' cur' vis' acc' =>
      rw [hstep] at hr
      rcases re_sim_step_next_hops hstep with ⟨hop, hhops, hd, hg⟩
      refine ih (step + 1) st' cur' vis' acc' ?_ ?_ r hr
      · rw [hhops, List.chain'_append]
        refine ⟨h1, by simp, ?_⟩
        intro x hx y hy
        rw [List.head?_cons, Option.mem_some_iff] at hy
        subst hy
        intro hgx
        rw [hd]
        exact h2 x hx hgx
      · intro h hlast hgh
        rw [hhops, getLast?_append_singleton, Option.some_inj] at hlast
        subst hlast
        rw [hd]
        exact hg hgh

/-- C1.  First conjunct: whenever the selector of
`routing_engine.RoutingEngine.select_next_hop` returns a hop annotated
"greedy" (never a fallback, cache or face hop), the chosen node's
Euclidean distance to the request's target is strictly smaller than the
current node's (squared distances order identically).  Second conjunct:
consequently, in every route the `simulator.py` executor completes, the
recorded hop sequence is a chain for `greedy_hop_decreasing` — each hop
annotated "greedy" moves to a node strictly closer to the target. -/
theorem greedy_hops_strictly_decrease_distance :
    (∀ (cfg : RECfg) (scoreFn : ScoreFn) (faceFn : FaceFn) (net : Net)
      (st : SimState) (current : Node) (target : Vec) (visited : List String)
      (n : Node),
      re_select_next_hop cfg scoreFn faceFn net st current target visited
        = (some n, "greedy") →
      dist2 n.vector target < dist2 current.vector target) ∧
    (∀ (cfg : RECfg) (scoreFn : ScoreFn) (faceFn : FaceFn) (net : Net)
      (st : SimState) (start : Node) (target : Vec) (r : RERouteResult),
      re_route_request cfg scoreFn faceFn net st start target = some r →
      List.Chain' greedy_hop_decreasing r.hops) := by
  constructor
  · intro cfg scoreFn faceFn net st current target visited n h
    exact re_select_greedy_improves h
  · intro cfg scoreFn faceFn net st start target r hr
    unfold re_route_request at hr
    dsimp only at hr
    exact re_sim_loop_greedy_chain cfg.max_hops 0 st start [] _ (by simp)
      (by simp) r hr

/-- Witness for C1: on the concrete two-node network the selector
returns `(B, "greedy")` with `B` strictly closer, and the completed
route (greedy hop then local-minimum termination) satisfies the chain
property. -/
theorem greedy_hops_strictly_decrease_distance_witness :
    dist2 aliveB.vector [1, 0] < dist2 aliveA.vector [1, 0] ∧
    List.Chain' greedy_hop_decreasing c1RouteVal.hops :=
  ⟨greedy_hops_strictly_decrease_distance.1 {} score0 face0 netAB
      SimState.empty aliveA [1, 0] [] aliveB (by decide),
    greedy_hops_strictly_decrease_distance.2 {} score0 face0 netAB
      SimState.empty aliveA [1, 0] c1RouteVal (by decide)⟩
